import Mathlib

/-!
Verification development for the Digital-Twin-CNC simulation core.

The development shallowly embeds the simulation engine (`usePhysicsEngine`:
`stepPhysics`), the cloud analytics of `App.tsx` (`statsOf`, `rulPrediction`,
the cycle-report effect), and the chart analytics of `TelemetryCharts`
(`spectrumData`, `predictionResult`) over the real numbers.  JavaScript
floating-point arithmetic is modelled by exact real arithmetic;
`Math.random()` calls are modelled by an explicit `RandDraws` input (one
field per call site inside a tick); `Math.pow(x, 0.5)` is modelled by `rpow`.
-/

noncomputable section

/-- `PhysicsParams` from `types.ts` (the fields read by the engine). -/
structure PhysicsParams where
  mass : ℝ
  stiffness : ℝ
  damping : ℝ
  baseForce : ℝ
  noiseLevel : ℝ

/-- `ControllerState` from `types.ts` (the fields read by the engine). -/
structure ControllerState where
  isCycleActive : Bool
  feedOverride : ℝ
  spindleOverride : ℝ
  targetRpc : ℝ
  coolantActive : Bool

/-- The cycle state machine phases. -/
inductive CycleState where
  | IDLE
  | RAPID_DOWN
  | CUTTING
  | RETRACT
  deriving DecidableEq, Repr

/-- The mutable engine state held in `stateRef` inside `usePhysicsEngine`. -/
structure EngineState where
  t : ℝ
  zPos : ℝ
  zVel : ℝ
  cycleState : CycleState
  temperature : ℝ
  wearFactor : ℝ

/-- `TelemetryPoint` from `types.ts`: the record returned by one `stepPhysics` call. -/
structure TelemetryPoint where
  timestamp : ℝ
  displacement : ℝ
  velocity : ℝ
  acceleration : ℝ
  zPos : ℝ
  torque : ℝ
  rpm : ℝ
  motorLoad : ℝ
  temperature : ℝ
  viscosity : ℝ

/-- One tick of `stepPhysics` calls `Math.random()` at four sites: the cutting
force factor, the sensor noise, the motor load jitter, and the reported rpm
jitter.  Each draw lies in `[0, 1)` at runtime, but no bound is assumed here. -/
structure RandDraws where
  cutForce : ℝ
  noise : ℝ
  load : ℝ
  rpm : ℝ

/-- `const DT = 0.005` in `usePhysicsEngine`. -/
def DT : ℝ := 0.005

/-- `const SCREW_PITCH = 0.01` in `usePhysicsEngine`. -/
def SCREW_PITCH : ℝ := 0.01

/-- The initial value of `stateRef` in `usePhysicsEngine`. -/
def initState : EngineState :=
  { t := 0, zPos := 0, zVel := 0, cycleState := .IDLE, temperature := 45.0, wearFactor := 0.0 }

/-- The quadruple of locals `(targetVel, actualCuttingForce, wearFactor,
cycleState)` after the controller-logic `switch` of `stepPhysics` has run
(wearFactor before the global clamp to `1.0`). -/
structure CycleOut where
  targetVel : ℝ
  actualCuttingForce : ℝ
  wearFactor : ℝ
  cycleState : CycleState

/-- Section `--- 1. Controller Logic (Cycle State) ---` of `stepPhysics`:
the `switch` on the cycle state when `isCycleActive`, else the feed-hold
branch (`targetVel = 0`; `actualCuttingForce` keeps its initial `0`, the
source's redundant `if (cycleState === 'CUTTING') actualCuttingForce = 0`
included). -/
def cycleLogic (params : PhysicsParams) (controller : ControllerState)
    (rnd : RandDraws) (s : EngineState) : CycleOut :=
  if controller.isCycleActive then
    match s.cycleState with
    | .IDLE => ⟨0, 0, s.wearFactor, .RAPID_DOWN⟩
    | .RAPID_DOWN =>
        ⟨0.2 * controller.feedOverride, 0, s.wearFactor,
          if s.zPos ≥ 0.35 then .CUTTING else .RAPID_DOWN⟩
    | .CUTTING =>
        let force := params.baseForce * controller.feedOverride * (1 + rnd.cutForce * 0.1)
        ⟨0.02 * controller.feedOverride, force,
          if force > 150 then s.wearFactor + 0.0001 else s.wearFactor,
          if s.zPos ≥ 0.45 then .RETRACT else .CUTTING⟩
    | .RETRACT =>
        ⟨-0.3, 0, s.wearFactor, if s.zPos ≤ 0.05 then .RAPID_DOWN else .RETRACT⟩
  else ⟨0, 0, s.wearFactor, s.cycleState⟩

/-- One tick of the physics engine: the body of `stepPhysics` in
`usePhysicsEngine`.  Returns the committed new `stateRef` value together with
the returned telemetry data point.  All reads of `cycleState` after the
controller `switch` see the already-transitioned phase, exactly as the
reassigned local does in the source. -/
def stepPhysics (params : PhysicsParams) (controller : ControllerState)
    (rnd : RandDraws) (s : EngineState) : EngineState × TelemetryPoint :=
  let currentRpm := controller.targetRpc * controller.spindleOverride
  let cyc := cycleLogic params controller rnd s
  -- Clamp wear
  let wearFactor := if cyc.wearFactor > 1.0 then 1.0 else cyc.wearFactor
  -- --- 2. Kinematics ---
  let Kp : ℝ := 50.0
  let error := cyc.targetVel - s.zVel
  let motorForce := error * Kp * params.mass
  -- --- 3. Vibration & Sensor Model ---
  let wearStiffnessMult := max 0.5 (1.0 - wearFactor * 0.5)
  let extension := max 0.1 s.zPos
  let effectiveDamping := params.damping * (if controller.coolantActive then 1.2 else 1.0)
  let effectiveStiffness := params.stiffness * wearStiffnessMult / extension
  let naturalFreq := (1 / (2 * Real.pi)) * Real.sqrt (effectiveStiffness / params.mass)
  let omega := 2 * Real.pi * (currentRpm / 60)
  let unbalanceAmp := (currentRpm / 3000) * 10 * 0.000005 * (1 + wearFactor * 5)
  let F_unbalance := unbalanceAmp * Real.sin (omega * s.t)
  let F_cutting_vib :=
    if cyc.cycleState = .CUTTING ∧ controller.isCycleActive = true then
      cyc.actualCuttingForce * 0.2 * Real.sin (4 * omega * s.t) +
        (if cyc.actualCuttingForce > 300 ∧ effectiveStiffness < 12000 then
          cyc.actualCuttingForce * 0.8 * Real.sin (2 * Real.pi * naturalFreq * s.t)
        else 0)
    else 0
  let totalVibForce0 := F_unbalance + F_cutting_vib
  let noise0 := (rnd.noise - 0.5) * params.noiseLevel
  -- Stop vibration simulation when retracting
  let totalVibForce := if cyc.cycleState = .RETRACT then 0 else totalVibForce0
  let noise := if cyc.cycleState = .RETRACT then noise0 * 0.1 else noise0
  let dampingReduction := 1 / (1 + effectiveDamping * 0.001)
  let vibDisplacement := totalVibForce / effectiveStiffness * dampingReduction + noise
  let vibVelocity := vibDisplacement * omega
  let vibAccel := vibVelocity * omega
  -- --- 4. Motor & Temp & Viscosity ---
  let baseLoad := (currentRpm / 3000) * 20
  let cuttingLoad := (cyc.actualCuttingForce / 500) * 60
  let motorLoad := min 100 (max 0 (baseLoad + cuttingLoad + rnd.load * 2))
  let ambientTemp : ℝ := 22
  let heatGen := motorLoad * 0.8
  let coolingTarget := if controller.coolantActive then ambientTemp + 5 else ambientTemp + heatGen
  let thermalInertia : ℝ := if controller.coolantActive then 0.05 else 0.002
  let temperature := s.temperature + (coolingTarget - s.temperature) * thermalInertia
  let viscosity := 150 * Real.exp (-0.035 * (temperature - 25))
  -- --- 5. Integrate Motion ---
  let zVel := s.zVel + (cyc.targetVel - s.zVel) * 0.05
  let zPos := s.zPos + zVel * DT
  let t := s.t + DT
  (⟨t, zPos, zVel, cyc.cycleState, temperature, wearFactor⟩,
   ⟨t, vibDisplacement, vibVelocity, vibAccel, zPos,
    motorForce * SCREW_PITCH / (2 * Real.pi), currentRpm + rnd.rpm * 5,
    motorLoad, temperature, viscosity⟩)

/-- A tick sequence: the engine state after `n` ticks starting from `s0`,
driven by the per-tick command and random-draw streams. -/
def runPhysics (params : PhysicsParams) (cmds : ℕ → ControllerState)
    (rnds : ℕ → RandDraws) (s0 : EngineState) : ℕ → EngineState
  | 0 => s0
  | n + 1 => (stepPhysics params (cmds n) (rnds n) (runPhysics params cmds rnds s0 n)).1

/-- The three-level health status of `AssetHealthStats` in `types.ts`. -/
inductive HealthStatus where
  | OPTIMAL
  | WARNING
  | CRITICAL
  deriving DecidableEq, Repr

/-- `AssetHealthStats` from `types.ts`. -/
structure AssetHealthStats where
  rmsDisplacement : ℝ
  peakVelocity : ℝ
  rmsAcceleration : ℝ
  dominantFrequency : ℝ
  avgLoad : ℝ
  status : HealthStatus

/-- The `stats` memo of `App.tsx` (cloud analytics): windowed statistics over
the last 30 telemetry points.  `telemetry.slice(-30)` is `drop (length - 30)`;
`Math.max(...window.map(abs velocity))` over a nonempty window of absolute
values equals a fold of `max` started at `0`. -/
def statsOf (telemetry : List TelemetryPoint) (controller : ControllerState) :
    AssetHealthStats :=
  let recentWindow := telemetry.drop (telemetry.length - 30)
  if recentWindow.length = 0 then
    ⟨0, 0, 0, 0, 0, .OPTIMAL⟩
  else
    let n : ℝ := recentWindow.length
    let rmsDisp := Real.sqrt ((recentWindow.map (fun p => p.displacement ^ 2)).sum / n)
    let maxVel := recentWindow.foldl (fun m p => max m |p.velocity|) 0
    let rmsAcc := Real.sqrt ((recentWindow.map (fun p => p.acceleration ^ 2)).sum / n)
    let avgLoad := (recentWindow.map (fun p => p.motorLoad)).sum / n
    let status : HealthStatus :=
      if rmsDisp > 0.00005 ∨ avgLoad > 95 then .CRITICAL
      else if rmsDisp > 0.00002 ∨ avgLoad > 80 then .WARNING
      else .OPTIMAL
    ⟨rmsDisp, maxVel, rmsAcc, controller.targetRpc * controller.spindleOverride / 60,
     avgLoad, status⟩

/-- `TrendRecord` from `types.ts`. -/
structure TrendRecord where
  time : ℝ
  rmsVelocity : ℝ

/-- The degradation stress factor keyed by status, from `rulPrediction` in
`App.tsx` and `predictionResult` in `TelemetryCharts` (the `let stressFactor
= 0.05; if WARNING … 0.15; if CRITICAL … 0.35` cascade). -/
def stressFactorOf : HealthStatus → ℝ
  | .OPTIMAL => 0.05
  | .WARNING => 0.15
  | .CRITICAL => 0.35

/-- The decay rate `lambda` computed inside `rulPrediction` in `App.tsx`
(lines 97–100): `stressFactor * (1 + rmsAcceleration / 10)`. -/
def rulLambda (stats : AssetHealthStats) : ℝ :=
  stressFactorOf stats.status * (1 + stats.rmsAcceleration / 10)

/-- The `rulPrediction` memo of `App.tsx`: the scalar remaining-useful-life
widget value.  `-1` is the "stable"/no-estimate sentinel. -/
def rulPrediction (trendHistory : List TrendRecord) (stats : AssetHealthStats) : ℝ :=
  if trendHistory.length < 5 then -1
  else
    let criticalLimit : ℝ := 11.2
    let startVal := stats.peakVelocity * 1000 * 0.707
    if startVal ≥ criticalLimit then 0
    else if rulLambda stats ≤ 0 then -1
    else
      let tRemaining := Real.log (criticalLimit / max 0.1 startVal) / (rulLambda stats * 0.1)
      if tRemaining > 3600 then -1 else tRemaining * 20

/-- The scalar outputs of the `predictionResult` memo in `TelemetryCharts`
(the merged chart rows are presentation only and are not modelled). -/
structure PredictionResult where
  failureTime : ℝ
  currentVal : ℝ
  lambda : ℝ
  limit : ℝ
  viscFactor : ℝ
  tempFactor : ℝ

/-- The forecast loop of `predictionResult`: 21 steps of 2 time units, value
`startVal·exp(lambda·(tOffset·0.1))`, recording the first time the value
reaches the critical limit `11.2` (`-1` when no crossing). -/
def forecastFailureTime (startVal startTime lambda : ℝ) : ℝ :=
  (List.range 21).foldl
    (fun failureTime i =>
      let tOffset : ℝ := i * 2
      let val := startVal * Real.exp (lambda * (tOffset * 0.1))
      if failureTime = -1 ∧ val ≥ 11.2 then startTime + tOffset else failureTime)
    (-1)

/-- The `predictionResult` memo of `TelemetryCharts` (RUL forecast model).
`lastPoint` falls back to `{time: 0, rmsVelocity: peakVelocity·1000·0.707}`
for an empty history; `Math.pow(x, 0.5)` is `rpow`. -/
def predictionResult (trendHistory : List TrendRecord) (stats : AssetHealthStats)
    (latestViscosity latestTemperature : ℝ) : PredictionResult :=
  let lastPoint := trendHistory.getLast?.getD ⟨0, stats.peakVelocity * 1000 * 0.707⟩
  let startVal := lastPoint.rmsVelocity
  let startTime := lastPoint.time
  let viscFactor := (68 / max 10 latestViscosity) ^ (0.5 : ℝ)
  let tempFactor := max 1 (latestTemperature / 50)
  let lambda := stressFactorOf stats.status * (1 + stats.rmsAcceleration / 10) *
    viscFactor * tempFactor
  ⟨forecastFailureTime startVal startTime lambda, startVal, lambda, 11.2,
   viscFactor, tempFactor⟩

/-- An all-zero telemetry point (out-of-range index default; the DFT below
never actually indexes out of range). -/
def zeroPoint : TelemetryPoint := ⟨0, 0, 0, 0, 0, 0, 0, 0, 0, 0⟩

/-- The Hanning window factor `0.5·(1 − cos(2πn/(N−1)))` from `spectrumData`. -/
def hannWindow (N n : ℕ) : ℝ :=
  0.5 * (1 - Real.cos (2 * Real.pi * n / ((N : ℝ) - 1)))

/-- The windowed sample `data[data.length − N + n].displacement * window`
fed to the DFT in `spectrumData`. -/
def dftValue (data : List TelemetryPoint) (N n : ℕ) : ℝ :=
  (data.getD (data.length - N + n) zeroPoint).displacement * hannWindow N n

/-- One spectrum entry of `spectrumData` for bin `k`: frequency
`k·sampleRate/N` (`sampleRate = 200`) and Hanning-windowed DFT magnitude
`sqrt(re² + im²)·2/N`, scaled by 1000 to millimetres as pushed by the source
(the source additionally formats the frequency with `toFixed(1)` for display;
the unrounded value is modelled). -/
def spectrumPoint (data : List TelemetryPoint) (N k : ℕ) : ℝ × ℝ :=
  let re := ∑ n ∈ Finset.range N,
    dftValue data N n * Real.cos (-(2 * Real.pi * k * n) / N)
  let im := ∑ n ∈ Finset.range N,
    dftValue data N n * Real.sin (-(2 * Real.pi * k * n) / N)
  let magnitude := Real.sqrt (re * re + im * im) * 2 / N
  ((k : ℝ) * 200 / N, magnitude * 1000)

/-- The `spectrumData` memo of `TelemetryCharts`: empty below 32 samples,
else the DFT bins over the most recent `N = min(length, 128)` samples.  The
JavaScript loop `for (k = 0; k < N/2; k++)` (float division) runs for
`k = 0, …, ⌈N/2⌉ − 1`, that is over `List.range ((N+1)/2)`, and pushes an
entry only when `k > 0`. -/
def spectrumData (data : List TelemetryPoint) : List (ℝ × ℝ) :=
  if data.length < 32 then []
  else
    let N := min data.length 128
    ((List.range ((N + 1) / 2)).filter (fun k => 0 < k)).map
      (fun k => spectrumPoint data N k)

/-- One input observed by the cycle-report effect of `App.tsx` at one of its
invocations: the current `controllerState.isCycleActive`, `stats`, telemetry
buffer, `currentStat.wear`, and the wall-clock `Date.now()` value. -/
structure ObsInput where
  isCycleActive : Bool
  stats : AssetHealthStats
  telemetry : List TelemetryPoint
  wear : ℝ
  now : ℝ

/-- The accumulator `cycleDataRef.current` of `App.tsx`. -/
structure CycleAcc where
  maxVib : ℝ
  maxTemp : ℝ
  loadSum : ℝ
  count : ℕ
  startWear : ℝ

/-- `CycleReport` from `types.ts`. -/
structure CycleReport where
  timestamp : ℝ
  duration : ℝ
  maxTemp : ℝ
  maxVibration : ℝ
  avgLoad : ℝ
  toolWearDelta : ℝ
  finalStatus : HealthStatus

/-- The body of the cycle-report effect in `App.tsx` for one invocation:
(1) on a rising edge reset the accumulator recording the start wear, (2)
while active accumulate max vibration (`peakVelocity·1000`), max temperature
(last buffered point, `|| 0`), load sum and count, (3) on a falling edge
emit the finalized report.  Returns the new accumulator, the new
`wasCycleActiveRef` value and the emitted report, if any. -/
def cycleEffect (wasActive : Bool) (acc : CycleAcc) (o : ObsInput) :
    CycleAcc × Bool × Option CycleReport :=
  let acc1 := if o.isCycleActive = true ∧ wasActive = false then
      (⟨0, 0, 0, 0, o.wear⟩ : CycleAcc)
    else acc
  let acc2 := if o.isCycleActive then
      (⟨max acc1.maxVib (o.stats.peakVelocity * 1000),
        max acc1.maxTemp ((o.telemetry.getLast?.map TelemetryPoint.temperature).getD 0),
        acc1.loadSum + o.stats.avgLoad, acc1.count + 1, acc1.startWear⟩ : CycleAcc)
    else acc1
  let report : Option CycleReport :=
    if o.isCycleActive = false ∧ wasActive = true then
      let avgLoad := if 0 < acc2.count then acc2.loadSum / acc2.count else 0
      some ⟨o.now, acc2.count * 0.05, acc2.maxTemp, acc2.maxVib, avgLoad,
            o.wear - acc2.startWear,
            if acc2.maxVib > 11.2 ∨ avgLoad > 95 then .CRITICAL
            else if acc2.maxVib > 4.5 ∨ avgLoad > 80 then .WARNING
            else .OPTIMAL⟩
    else none
  (acc2, o.isCycleActive, report)

/-- The reports emitted by running the cycle-report effect over a sequence of
observed inputs. -/
def runReporter (wasActive : Bool) (acc : CycleAcc) :
    List ObsInput → List CycleReport
  | [] => []
  | o :: rest =>
      let step := cycleEffect wasActive acc o
      match step.2.2 with
      | some r => r :: runReporter step.2.1 step.1 rest
      | none => runReporter step.2.1 step.1 rest

/-- `MACHINE_CONSTANTS` from `App.tsx` (the fields read by the engine). -/
def MACHINE_CONSTANTS : PhysicsParams :=
  { mass := 150, stiffness := 12000, damping := 200, baseForce := 300, noiseLevel := 0.0001 }

/-- A controller command with the cycle inactive (feed hold) and default
overrides. -/
def holdCmd : ControllerState :=
  { isCycleActive := false, feedOverride := 1.0, spindleOverride := 1.0,
    targetRpc := 3000, coolantActive := false }

/-- Zero draws for all four `Math.random()` call sites of a tick. -/
def zeroRand : RandDraws := ⟨0, 0, 0, 0⟩

/-- An engine state under feed hold that still carries residual axis
velocity. -/
def c1Start : EngineState :=
  { t := 0, zPos := 0, zVel := 1, cycleState := .IDLE, temperature := 45, wearFactor := 0 }

/-- A command with the spindle stopped, used to isolate the rpm jitter. -/
def c2Cmd : ControllerState :=
  { isCycleActive := false, feedOverride := 1.0, spindleOverride := 1.0,
    targetRpc := 0, coolantActive := false }

/-- Random draws differing from `zeroRand` only in the rpm jitter. -/
def c2Rand : RandDraws := ⟨0, 0, 0, 1 / 2⟩

/-- An engine state mid-cut with the wear factor already at its ceiling. -/
def c3State : EngineState :=
  { t := 0, zPos := 0.4, zVel := 0.02, cycleState := .CUTTING, temperature := 45,
    wearFactor := 1 }

/-- A command with the cycle active and default overrides. -/
def activeCmd : ControllerState :=
  { isCycleActive := true, feedOverride := 1.0, spindleOverride := 1.0,
    targetRpc := 3000, coolantActive := false }

/-- The condition under which the `CUTTING` case of the controller `switch`
increments the wear factor: cycle active, phase `CUTTING`, and the drawn
cutting force above the 150 N threshold. -/
abbrev wearIncrCond (params : PhysicsParams) (controller : ControllerState)
    (rnd : RandDraws) (s : EngineState) : Prop :=
  controller.isCycleActive = true ∧ s.cycleState = .CUTTING ∧
    params.baseForce * controller.feedOverride * (1 + rnd.cutForce * 0.1) > 150

/-- A telemetry point carrying only a motor load reading. -/
def mkLoadPoint (load : ℝ) : TelemetryPoint := ⟨0, 0, 0, 0, 0, 0, 0, load, 0, 0⟩

/-- A two-tick motor-load stream: 10 % then 20 %. -/
def c5Ticks : List TelemetryPoint := [mkLoadPoint 10, mkLoadPoint 20]

/-- Reporter observation at the rising edge: buffer holds the first tick. -/
def c5Obs1 : ObsInput :=
  ⟨true, statsOf (c5Ticks.take 1) activeCmd, c5Ticks.take 1, 0, 0⟩

/-- Reporter observation while active: buffer holds both ticks. -/
def c5Obs2 : ObsInput := ⟨true, statsOf c5Ticks activeCmd, c5Ticks, 0, 0⟩

/-- Reporter observation at the falling edge. -/
def c5Obs3 : ObsInput := ⟨false, statsOf c5Ticks activeCmd, c5Ticks, 0, 0⟩

/-- The initial `cycleDataRef.current` value of `App.tsx`. -/
def acc0 : CycleAcc := ⟨0, 0, 0, 0, 0⟩

/-- Health statistics whose raw peak velocity already puts the display value
`peakVelocity·1000·0.707` above the critical limit `11.2`. -/
def c6Stats : AssetHealthStats := ⟨0, 0.02, 0, 0, 0, .OPTIMAL⟩

/-- A trend history of five records. -/
def c6Hist : List TrendRecord := List.replicate 5 ⟨0, 1⟩

/-- Command schedule driving `zPos` past the bottom of the cut: one tick of
full rapid feed to pick up velocity `0.015`, then per-phase feed overrides
(`0.075` during `RAPID_DOWN`, `0.75` during `CUTTING`) chosen so the target
velocity always equals the current axis velocity, which the exponential
approach law then holds constant. All overrides lie in the documented
`[0, 1.5]` range. -/
def c8Cmd (n : ℕ) : ControllerState :=
  { isCycleActive := true,
    feedOverride := if n = 1 then 1.5 else if n ≤ 4668 then 0.075 else 0.75,
    spindleOverride := 1, targetRpc := 3000, coolantActive := false }

/-- The tick sequence driven by `c8Cmd` from the initial state. -/
def c8State (n : ℕ) : EngineState :=
  runPhysics MACHINE_CONSTANTS c8Cmd (fun _ => zeroRand) initState n

/-- The momentum-like potential `zPos + 0.095·zVel`: one tick moves it by
exactly `0.005·targetVel`, since `0.095 = (0.95/0.05)·DT`. -/
def Mval (s : EngineState) : ℝ := s.zPos + 0.095 * s.zVel

/-- Per-phase upper bound for `Mval` along any reachable run. -/
def Ubound : CycleState → ℝ
  | .IDLE => 0
  | .RAPID_DOWN => 0.38
  | .CUTTING => 0.47865
  | .RETRACT => 0.4788

/-- Per-phase lower bound for `Mval` whenever the axis velocity is
negative. -/
def mbound : CycleState → ℝ
  | .RETRACT => 0.02
  | _ => 0.0185

/-- Inductive invariant of the axis kinematics under feed overrides in
`[0, 1.5]`: bounded velocity, nonnegative position, per-phase bounds on the
potential `Mval`, and the fact that in `RETRACT` the axis is either moving
up or still above the retract height. -/
def axisInv (s : EngineState) : Prop :=
  |s.zVel| ≤ 0.3 ∧ 0 ≤ s.zPos ∧ Mval s ≤ Ubound s.cycleState ∧
    (s.zVel < 0 → mbound s.cycleState ≤ Mval s) ∧
    (s.cycleState = .RETRACT → s.zVel < 0 ∨ 0.05 < s.zPos)

end

/-! ### Projection lemmas for one physics tick -/

theorem step_zVel (p : PhysicsParams) (c : ControllerState) (r : RandDraws)
    (s : EngineState) :
    ((stepPhysics p c r s).1).zVel =
      s.zVel + ((cycleLogic p c r s).targetVel - s.zVel) * 0.05 := rfl

theorem step_zPos (p : PhysicsParams) (c : ControllerState) (r : RandDraws)
    (s : EngineState) :
    ((stepPhysics p c r s).1).zPos =
      s.zPos + (s.zVel + ((cycleLogic p c r s).targetVel - s.zVel) * 0.05) * DT := rfl

theorem step_cycleState (p : PhysicsParams) (c : ControllerState) (r : RandDraws)
    (s : EngineState) :
    ((stepPhysics p c r s).1).cycleState = (cycleLogic p c r s).cycleState := rfl

theorem step_wearFactor (p : PhysicsParams) (c : ControllerState) (r : RandDraws)
    (s : EngineState) :
    ((stepPhysics p c r s).1).wearFactor =
      if (cycleLogic p c r s).wearFactor > 1.0 then 1.0
      else (cycleLogic p c r s).wearFactor := rfl

theorem step_temperature (p : PhysicsParams) (c : ControllerState) (r : RandDraws)
    (s : EngineState) :
    ((stepPhysics p c r s).1).temperature =
      s.temperature +
        ((if c.coolantActive then 22 + 5
          else 22 + min 100 (max 0 (c.targetRpc * c.spindleOverride / 3000 * 20 +
            (cycleLogic p c r s).actualCuttingForce / 500 * 60 + r.load * 2)) * 0.8) -
          s.temperature) *
        (if c.coolantActive then 0.05 else 0.002) := rfl

theorem step_tel_rpm (p : PhysicsParams) (c : ControllerState) (r : RandDraws)
    (s : EngineState) :
    ((stepPhysics p c r s).2).rpm = c.targetRpc * c.spindleOverride + r.rpm * 5 := rfl

/-! ### Case lemmas for the controller switch -/

theorem cycleLogic_inactive (p : PhysicsParams) (c : ControllerState) (r : RandDraws)
    (s : EngineState) (h : c.isCycleActive = false) :
    cycleLogic p c r s = ⟨0, 0, s.wearFactor, s.cycleState⟩ := by
  simp [cycleLogic, h]

theorem cycleLogic_IDLE (p : PhysicsParams) (c : ControllerState) (r : RandDraws)
    (s : EngineState) (h : c.isCycleActive = true) (hs : s.cycleState = .IDLE) :
    cycleLogic p c r s = ⟨0, 0, s.wearFactor, .RAPID_DOWN⟩ := by
  simp [cycleLogic, h, hs]

theorem cycleLogic_RAPID (p : PhysicsParams) (c : ControllerState) (r : RandDraws)
    (s : EngineState) (h : c.isCycleActive = true) (hs : s.cycleState = .RAPID_DOWN) :
    cycleLogic p c r s = ⟨0.2 * c.feedOverride, 0, s.wearFactor,
      if s.zPos ≥ 0.35 then .CUTTING else .RAPID_DOWN⟩ := by
  simp [cycleLogic, h, hs]

theorem cycleLogic_CUTTING (p : PhysicsParams) (c : ControllerState) (r : RandDraws)
    (s : EngineState) (h : c.isCycleActive = true) (hs : s.cycleState = .CUTTING) :
    cycleLogic p c r s =
      ⟨0.02 * c.feedOverride, p.baseForce * c.feedOverride * (1 + r.cutForce * 0.1),
        if p.baseForce * c.feedOverride * (1 + r.cutForce * 0.1) > 150 then
          s.wearFactor + 0.0001
        else s.wearFactor,
        if s.zPos ≥ 0.45 then .RETRACT else .CUTTING⟩ := by
  simp [cycleLogic, h, hs]

theorem cycleLogic_RETRACT (p : PhysicsParams) (c : ControllerState) (r : RandDraws)
    (s : EngineState) (h : c.isCycleActive = true) (hs : s.cycleState = .RETRACT) :
    cycleLogic p c r s = ⟨-0.3, 0, s.wearFactor,
      if s.zPos ≤ 0.05 then .RAPID_DOWN else .RETRACT⟩ := by
  simp [cycleLogic, h, hs]

/-! ### Claim C1 -/

/-- Claim C1, counterexample: under feed hold (`cycleActive` false) from a
state with residual axis velocity `1`, a single tick moves the committed
`zPos` (by `0.95·1·0.005 = 0.00475`), so position is not held for arbitrary
starting states. -/
theorem c1_counterexample :
    ((stepPhysics MACHINE_CONSTANTS holdCmd zeroRand c1Start).1).zPos ≠ c1Start.zPos := by
  rw [step_zPos, cycleLogic_inactive _ _ _ _ (by rfl)]
  simp only [c1Start, DT]
  norm_num

/-- Claim C1, amended: across any tick sequence with `cycleActive` held
false, the cycle phase is unchanged from any starting state, and `zPos` (and
the axis velocity) are unchanged provided the starting axis velocity is zero. -/
theorem c1_feed_hold (p : PhysicsParams) (cmds : ℕ → ControllerState)
    (rnds : ℕ → RandDraws) (s : EngineState)
    (h : ∀ k, (cmds k).isCycleActive = false) (n : ℕ) :
    (runPhysics p cmds rnds s n).cycleState = s.cycleState ∧
      (s.zVel = 0 → (runPhysics p cmds rnds s n).zPos = s.zPos ∧
        (runPhysics p cmds rnds s n).zVel = 0) := by
  induction n with
  | zero => exact ⟨rfl, fun _ => ⟨rfl, ‹s.zVel = 0›⟩⟩
  | succ n ih =>
    obtain ⟨hc, hz⟩ := ih
    constructor
    · show ((stepPhysics p (cmds n) (rnds n) (runPhysics p cmds rnds s n)).1).cycleState = _
      rw [step_cycleState, cycleLogic_inactive _ _ _ _ (h n)]
      exact hc
    · intro h0
      obtain ⟨hp1, hv1⟩ := hz h0
      constructor
      · show ((stepPhysics p (cmds n) (rnds n) (runPhysics p cmds rnds s n)).1).zPos = _
        rw [step_zPos, cycleLogic_inactive _ _ _ _ (h n), hv1, hp1]
        simp
      · show ((stepPhysics p (cmds n) (rnds n) (runPhysics p cmds rnds s n)).1).zVel = _
        rw [step_zVel, cycleLogic_inactive _ _ _ _ (h n), hv1]
        simp

/-- Claim C1, witness: three held ticks from the initial state keep the
phase `IDLE` and the position at `0`. -/
theorem c1_feed_hold_witness :
    (runPhysics MACHINE_CONSTANTS (fun _ => holdCmd) (fun _ => zeroRand) initState 3).cycleState
        = initState.cycleState ∧
      (initState.zVel = 0 →
        (runPhysics MACHINE_CONSTANTS (fun _ => holdCmd) (fun _ => zeroRand) initState 3).zPos
            = initState.zPos ∧
          (runPhysics MACHINE_CONSTANTS (fun _ => holdCmd) (fun _ => zeroRand) initState 3).zVel
            = 0) :=
  c1_feed_hold MACHINE_CONSTANTS (fun _ => holdCmd) (fun _ => zeroRand) initState
    (fun _ => rfl) 3

/-! ### Claim C2 -/

/-- Claim C2, counterexample: two ticks from the same prior state, machine
parameters and controller command but different `Math.random()` draws emit
telemetry samples with different reported rpm (`0` versus `2.5`), so a tick
is not a function of `(prior state, parameters, command)` alone. -/
theorem c2_counterexample :
    ((stepPhysics MACHINE_CONSTANTS c2Cmd zeroRand initState).2).rpm ≠
      ((stepPhysics MACHINE_CONSTANTS c2Cmd c2Rand initState).2).rpm := by
  rw [step_tel_rpm, step_tel_rpm]
  simp only [c2Cmd, zeroRand, c2Rand]
  norm_num

/-- Claim C2, amended: a tick is a deterministic function of the prior
state, the parameters, the command, and the four `Math.random()` draws of
that tick; two runs of a tick agreeing on all four inputs produce an
identical committed state and telemetry sample. -/
theorem c2_deterministic (p₁ p₂ : PhysicsParams) (c₁ c₂ : ControllerState)
    (r₁ r₂ : RandDraws) (s₁ s₂ : EngineState)
    (hp : p₁ = p₂) (hc : c₁ = c₂) (hr : r₁ = r₂) (hs : s₁ = s₂) :
    stepPhysics p₁ c₁ r₁ s₁ = stepPhysics p₂ c₂ r₂ s₂ := by
  rw [hp, hc, hr, hs]

/-- Claim C2, witness: the amended determinism applied at a concrete tick. -/
theorem c2_deterministic_witness :
    stepPhysics MACHINE_CONSTANTS c2Cmd zeroRand initState =
      stepPhysics MACHINE_CONSTANTS c2Cmd zeroRand initState :=
  c2_deterministic MACHINE_CONSTANTS MACHINE_CONSTANTS c2Cmd c2Cmd zeroRand zeroRand
    initState initState rfl rfl rfl rfl

/-! ### Claim C3 -/

theorem cycleLogic_wear (p : PhysicsParams) (c : ControllerState) (r : RandDraws)
    (s : EngineState) :
    (cycleLogic p c r s).wearFactor =
      if wearIncrCond p c r s then s.wearFactor + 0.0001 else s.wearFactor := by
  obtain ⟨t, zp, zv, cs, temp, w⟩ := s
  by_cases hA : c.isCycleActive = true
  · cases cs <;> simp [cycleLogic, wearIncrCond, hA]
  · have hA2 : c.isCycleActive = false := by
      cases h : c.isCycleActive
      · rfl
      · exact absurd h hA
    simp [cycleLogic, wearIncrCond, hA2]

theorem step_wear_cases (p : PhysicsParams) (c : ControllerState) (r : RandDraws)
    (s : EngineState) (hw : s.wearFactor ≤ 1) :
    (s.wearFactor ≤ ((stepPhysics p c r s).1).wearFactor ∧
      ((stepPhysics p c r s).1).wearFactor ≤ 1) ∧
    (wearIncrCond p c r s →
      ((stepPhysics p c r s).1).wearFactor = min (s.wearFactor + 0.0001) 1) ∧
    (¬ wearIncrCond p c r s →
      ((stepPhysics p c r s).1).wearFactor = s.wearFactor) := by
  rw [step_wearFactor, cycleLogic_wear]
  by_cases h : wearIncrCond p c r s
  · rw [if_pos h]
    by_cases h2 : s.wearFactor + 0.0001 > 1.0
    · rw [if_pos h2]
      refine ⟨⟨by linarith, by norm_num⟩, fun _ => ?_, fun hn => absurd h hn⟩
      rw [min_eq_right (by linarith)]
      norm_num
    · rw [if_neg h2]
      push_neg at h2
      refine ⟨⟨by linarith, by linarith⟩, fun _ => ?_, fun hn => absurd h hn⟩
      rw [min_eq_left (by linarith)]
  · rw [if_neg h]
    rw [if_neg (by norm_num; linarith : ¬ s.wearFactor > 1.0)]
    exact ⟨⟨le_refl _, hw⟩, fun hc => absurd hc h, fun _ => rfl⟩

theorem run_wear_le_one (p : PhysicsParams) (cmds : ℕ → ControllerState)
    (rnds : ℕ → RandDraws) (s : EngineState) (hw : s.wearFactor ≤ 1) (n : ℕ) :
    (runPhysics p cmds rnds s n).wearFactor ≤ 1 := by
  induction n with
  | zero => exact hw
  | succ n ih => exact ((step_wear_cases p (cmds n) (rnds n) _ ih).1).2

/-- Claim C3, counterexample: a tick with the cycle active, phase `CUTTING`
and cutting force `300 > 150`, from a state whose wear factor is at the
ceiling `1`, leaves the wear factor unchanged (the increment is clamped
away), so wear does not increase in every tick satisfying the claimed
condition. -/
theorem c3_counterexample :
    wearIncrCond MACHINE_CONSTANTS activeCmd zeroRand c3State ∧
      ((stepPhysics MACHINE_CONSTANTS activeCmd zeroRand c3State).1).wearFactor =
        c3State.wearFactor := by
  have hcond : wearIncrCond MACHINE_CONSTANTS activeCmd zeroRand c3State := by
    refine ⟨rfl, rfl, ?_⟩
    norm_num [MACHINE_CONSTANTS, activeCmd, zeroRand]
  refine ⟨hcond, ?_⟩
  rw [step_wearFactor, cycleLogic_wear, if_pos hcond]
  norm_num [c3State]

/-- Claim C3, amended: starting from any state with wear factor at most `1`,
along any tick sequence the wear factor is non-decreasing and stays at most
`1`; in a tick whose cycle is active, phase is `CUTTING` and drawn cutting
force exceeds `150` it becomes `min (wear + 0.0001) 1` (the fixed increment,
clamped at the ceiling), and in every other tick it is unchanged. -/
theorem c3_wear_monotone (p : PhysicsParams) (cmds : ℕ → ControllerState)
    (rnds : ℕ → RandDraws) (s : EngineState) (hw : s.wearFactor ≤ 1) (n : ℕ) :
    ((runPhysics p cmds rnds s n).wearFactor ≤ (runPhysics p cmds rnds s (n + 1)).wearFactor ∧
      (runPhysics p cmds rnds s (n + 1)).wearFactor ≤ 1) ∧
    (wearIncrCond p (cmds n) (rnds n) (runPhysics p cmds rnds s n) →
      (runPhysics p cmds rnds s (n + 1)).wearFactor =
        min ((runPhysics p cmds rnds s n).wearFactor + 0.0001) 1) ∧
    (¬ wearIncrCond p (cmds n) (rnds n) (runPhysics p cmds rnds s n) →
      (runPhysics p cmds rnds s (n + 1)).wearFactor =
        (runPhysics p cmds rnds s n).wearFactor) :=
  step_wear_cases p (cmds n) (rnds n) _ (run_wear_le_one p cmds rnds s hw n)

/-- Claim C3, witness: the amended statement applied to the first tick from
the initial state under feed hold. -/
theorem c3_wear_monotone_witness :
    ((runPhysics MACHINE_CONSTANTS (fun _ => holdCmd) (fun _ => zeroRand) initState 0).wearFactor ≤
        (runPhysics MACHINE_CONSTANTS (fun _ => holdCmd) (fun _ => zeroRand) initState 1).wearFactor ∧
      (runPhysics MACHINE_CONSTANTS (fun _ => holdCmd) (fun _ => zeroRand) initState 1).wearFactor ≤ 1) ∧
    (wearIncrCond MACHINE_CONSTANTS holdCmd zeroRand
        (runPhysics MACHINE_CONSTANTS (fun _ => holdCmd) (fun _ => zeroRand) initState 0) →
      (runPhysics MACHINE_CONSTANTS (fun _ => holdCmd) (fun _ => zeroRand) initState 1).wearFactor =
        min ((runPhysics MACHINE_CONSTANTS (fun _ => holdCmd) (fun _ => zeroRand) initState 0).wearFactor
          + 0.0001) 1) ∧
    (¬ wearIncrCond MACHINE_CONSTANTS holdCmd zeroRand
        (runPhysics MACHINE_CONSTANTS (fun _ => holdCmd) (fun _ => zeroRand) initState 0) →
      (runPhysics MACHINE_CONSTANTS (fun _ => holdCmd) (fun _ => zeroRand) initState 1).wearFactor =
        (runPhysics MACHINE_CONSTANTS (fun _ => holdCmd) (fun _ => zeroRand) initState 0).wearFactor) :=
  c3_wear_monotone MACHINE_CONSTANTS (fun _ => holdCmd) (fun _ => zeroRand) initState
    (by norm_num [initState]) 0

/-! ### Claim C9 -/

theorem step_temperature_bounds (p : PhysicsParams) (c : ControllerState)
    (r : RandDraws) (s : EngineState) (h1 : 22 ≤ s.temperature)
    (h2 : s.temperature ≤ 102) :
    22 ≤ ((stepPhysics p c r s).1).temperature ∧
      ((stepPhysics p c r s).1).temperature ≤ 102 := by
  rw [step_temperature]
  have hL0 : (0 : ℝ) ≤ min 100 (max 0 (c.targetRpc * c.spindleOverride / 3000 * 20 +
      (cycleLogic p c r s).actualCuttingForce / 500 * 60 + r.load * 2)) :=
    le_min (by norm_num) (le_max_left 0 _)
  have hL100 : min 100 (max 0 (c.targetRpc * c.spindleOverride / 3000 * 20 +
      (cycleLogic p c r s).actualCuttingForce / 500 * 60 + r.load * 2)) ≤ 100 :=
    min_le_left _ _
  cases hcc : c.coolantActive
  · simp only [hcc, Bool.false_eq_true, if_false]
    constructor <;> nlinarith
  · simp only [hcc, if_true]
    constructor <;> nlinarith

/-- Claim C9: starting from the initial bearing temperature `45`, the
committed temperature after every tick lies in `[22, 102]` for every
sequence of commands, parameters and random draws, since each tick is a
convex step toward a target in that interval (`27` with coolant, else
`22 + 0.8·motorLoad` with the motor load clamped to `[0, 100]`). -/
theorem c9_temperature_bounds (p : PhysicsParams) (cmds : ℕ → ControllerState)
    (rnds : ℕ → RandDraws) (n : ℕ) :
    22 ≤ (runPhysics p cmds rnds initState n).temperature ∧
      (runPhysics p cmds rnds initState n).temperature ≤ 102 := by
  induction n with
  | zero => norm_num [runPhysics, initState]
  | succ n ih =>
    exact step_temperature_bounds p (cmds n) (rnds n) _ ih.1 ih.2

/-! ### Claim C6 -/

theorem rulPrediction_unfold (th : List TrendRecord) (stats : AssetHealthStats)
    (h5 : 5 ≤ th.length) :
    rulPrediction th stats =
      (if stats.peakVelocity * 1000 * 0.707 ≥ 11.2 then 0
       else if rulLambda stats ≤ 0 then -1
       else if Real.log (11.2 / max 0.1 (stats.peakVelocity * 1000 * 0.707)) /
              (rulLambda stats * 0.1) > 3600 then -1
       else Real.log (11.2 / max 0.1 (stats.peakVelocity * 1000 * 0.707)) /
              (rulLambda stats * 0.1) * 20) := by
  rw [rulPrediction, if_neg (by omega : ¬ th.length < 5)]

/-- Claim C6, counterexample: with an empty trend history (fewer than 5
records) the scalar RUL estimator returns the stable sentinel `-1` even
though the current value `0.02·1000·0.707 = 14.14` already exceeds the
critical limit `11.2`, so the reported time-to-failure is not `0` for every
input with the value above the limit. -/
theorem c6_counterexample :
    rulPrediction [] c6Stats = -1 ∧ 11.2 ≤ c6Stats.peakVelocity * 1000 * 0.707 ∧
      (-1 : ℝ) ≠ 0 := by
  refine ⟨?_, by norm_num [c6Stats], by norm_num⟩
  rw [rulPrediction, if_pos (by simp)]

/-- Claim C6, amended: provided the trend history holds at least 5 records,
the scalar RUL estimator returns exactly `0` when the current value is at or
above the critical limit, returns the stable sentinel `-1` when the computed
decay rate is nonpositive, and otherwise never returns a negative time: the
result is either the `-1` sentinel or nonnegative (with fewer than 5 records
it always returns the sentinel; `NaN` does not arise in the real-valued
model). -/
theorem c6_rul_sentinels (th : List TrendRecord) (stats : AssetHealthStats)
    (h5 : 5 ≤ th.length) :
    (11.2 ≤ stats.peakVelocity * 1000 * 0.707 → rulPrediction th stats = 0) ∧
    (rulLambda stats ≤ 0 → stats.peakVelocity * 1000 * 0.707 < 11.2 →
      rulPrediction th stats = -1) ∧
    (rulPrediction th stats = -1 ∨ 0 ≤ rulPrediction th stats) := by
  rw [rulPrediction_unfold th stats h5]
  set sv := stats.peakVelocity * 1000 * 0.707 with hsv
  refine ⟨?_, ?_, ?_⟩
  · intro hge
    rw [if_pos (by exact hge)]
  · intro hl hv
    rw [if_neg (by exact not_le.mpr hv), if_pos hl]
  · by_cases hge : sv ≥ 11.2
    · rw [if_pos hge]; right; norm_num
    · rw [if_neg hge]
      by_cases hl : rulLambda stats ≤ 0
      · rw [if_pos hl]; left; rfl
      · rw [if_neg hl]
        by_cases hcap : Real.log (11.2 / max 0.1 sv) / (rulLambda stats * 0.1) > 3600
        · rw [if_pos hcap]; left; rfl
        · rw [if_neg hcap]; right
          push_neg at hge hl
          have hm : (0 : ℝ) < max 0.1 sv := lt_max_of_lt_left (by norm_num)
          have harg : (1 : ℝ) ≤ 11.2 / max 0.1 sv := by
            rw [le_div_iff₀ hm]
            have : sv ≤ 11.2 := le_of_lt hge
            simp only [one_mul]
            exact max_le (by norm_num) this
          have hlog : 0 ≤ Real.log (11.2 / max 0.1 sv) := Real.log_nonneg harg
          have hden : 0 ≤ rulLambda stats * 0.1 := by nlinarith
          exact mul_nonneg (div_nonneg hlog hden) (by norm_num)

/-- Claim C6, witness: with five history records and a value above the
limit, the amended statement yields the exact-zero report. -/
theorem c6_rul_sentinels_witness : rulPrediction c6Hist c6Stats = 0 :=
  (c6_rul_sentinels c6Hist c6Stats (by simp [c6Hist])).1 (by norm_num [c6Stats])

/-! ### Claim C10 -/

theorem statsOf_rmsAcceleration_nonneg (tel : List TelemetryPoint)
    (ctl : ControllerState) : 0 ≤ (statsOf tel ctl).rmsAcceleration := by
  rw [statsOf]
  split
  · norm_num
  · exact Real.sqrt_nonneg _

/-- Claim C10: for statistics produced by the health aggregator, the decay
rate `lambda` of the scalar RUL estimator is at least `0.05` (the stress
factor is one of `0.05/0.15/0.35` and the RMS acceleration is nonnegative),
so the `lambda ≤ 0` stable branch is unreachable: whenever the trend history
holds at least 5 records and the current value is below the critical limit,
the result comes from the logarithmic inversion formula (`-1` only through
the explicit `> 3600` cap). -/
theorem c10_lambda_positive (tel : List TelemetryPoint) (ctl : ControllerState)
    (th : List TrendRecord) (h5 : 5 ≤ th.length)
    (hv : (statsOf tel ctl).peakVelocity * 1000 * 0.707 < 11.2) :
    0.05 ≤ rulLambda (statsOf tel ctl) ∧
      rulPrediction th (statsOf tel ctl) =
        (if Real.log (11.2 / max 0.1 ((statsOf tel ctl).peakVelocity * 1000 * 0.707)) /
              (rulLambda (statsOf tel ctl) * 0.1) > 3600 then -1
         else Real.log (11.2 / max 0.1 ((statsOf tel ctl).peakVelocity * 1000 * 0.707)) /
              (rulLambda (statsOf tel ctl) * 0.1) * 20) := by
  have hacc := statsOf_rmsAcceleration_nonneg tel ctl
  have hsf : 0.05 ≤ stressFactorOf (statsOf tel ctl).status := by
    cases (statsOf tel ctl).status <;> norm_num [stressFactorOf]
  have hlam : 0.05 ≤ rulLambda (statsOf tel ctl) := by
    rw [rulLambda]
    nlinarith
  refine ⟨hlam, ?_⟩
  rw [rulPrediction_unfold th _ h5, if_neg (not_le.mpr hv),
    if_neg (by linarith : ¬ rulLambda (statsOf tel ctl) ≤ 0)]

/-- Claim C10, witness: instantiated at the empty telemetry buffer (all-zero
OPTIMAL statistics) and a five-record history. -/
theorem c10_lambda_positive_witness :
    0.05 ≤ rulLambda (statsOf [] holdCmd) ∧
      rulPrediction c6Hist (statsOf [] holdCmd) =
        (if Real.log (11.2 / max 0.1 ((statsOf [] holdCmd).peakVelocity * 1000 * 0.707)) /
              (rulLambda (statsOf [] holdCmd) * 0.1) > 3600 then -1
         else Real.log (11.2 / max 0.1 ((statsOf [] holdCmd).peakVelocity * 1000 * 0.707)) /
              (rulLambda (statsOf [] holdCmd) * 0.1) * 20) :=
  c10_lambda_positive [] holdCmd c6Hist (by simp [c6Hist])
    (by norm_num [statsOf])

/-! ### Claim C7 -/

/-- Claim C7, counterexample: with all-optimal statistics, viscosity `17`
(viscosity factor `sqrt(68/17) = 2`) and temperature `100` (temperature
factor `2`), the forecast-curve estimator computes `lambda = 0.2` while the
scalar RUL estimator computes `lambda = 0.05`: the scalar estimator does not
apply the viscosity and temperature factors. -/
theorem c7_counterexample :
    rulLambda c6Stats ≠ (predictionResult [] c6Stats 17 100).lambda := by
  have h1 : rulLambda c6Stats = 0.05 := by
    norm_num [rulLambda, stressFactorOf, c6Stats]
  have h2 : (predictionResult [] c6Stats 17 100).lambda = 0.2 := by
    show stressFactorOf c6Stats.status * (1 + c6Stats.rmsAcceleration / 10) *
      ((68 / max 10 (17 : ℝ)) ^ (0.5 : ℝ)) * max 1 ((100 : ℝ) / 50) = 0.2
    have h4 : (68 / max (10 : ℝ) 17) = 4 := by
      rw [max_eq_right (by norm_num : (10 : ℝ) ≤ 17)]
      norm_num
    rw [h4]
    have h5 : ((4 : ℝ) ^ (0.5 : ℝ)) = 2 := by
      rw [show (0.5 : ℝ) = 1 / 2 by norm_num, ← Real.sqrt_eq_rpow,
        show (4 : ℝ) = 2 ^ 2 by norm_num, Real.sqrt_sq (by norm_num : (0 : ℝ) ≤ 2)]
    rw [h5]
    norm_num [stressFactorOf, c6Stats]
  rw [h1, h2]
  norm_num

/-- Claim C7, amended: the forecast-curve estimator's decay rate equals
`stressFactor(status) · (1 + rmsAcceleration/10) · sqrt(68 / max(10, viscosity))
· max(1, temperature/50)`, while the scalar RUL estimator's decay rate is
only `stressFactor(status) · (1 + rmsAcceleration/10)`, without the
viscosity and temperature factors. -/
theorem c7_lambda_formula (th : List TrendRecord) (st : AssetHealthStats) (v T : ℝ) :
    (predictionResult th st v T).lambda =
      stressFactorOf st.status * (1 + st.rmsAcceleration / 10) *
        Real.sqrt (68 / max 10 v) * max 1 (T / 50) ∧
    rulLambda st = stressFactorOf st.status * (1 + st.rmsAcceleration / 10) := by
  refine ⟨?_, rfl⟩
  show stressFactorOf st.status * (1 + st.rmsAcceleration / 10) *
      ((68 / max 10 v) ^ (0.5 : ℝ)) * max 1 (T / 50) = _
  rw [Real.sqrt_eq_rpow, show (1 / (2 : ℝ)) = 0.5 by norm_num]

/-! ### Claim C4 -/

theorem length_filter_range_pos (m : ℕ) :
    ((List.range m).filter (fun k => 0 < k)).length = m - 1 := by
  induction m with
  | zero => rfl
  | succ m ih =>
    rw [List.range_succ, List.filter_append, List.length_append, ih]
    cases m with
    | zero => simp
    | succ k =>
      have h1 : (List.filter (fun j => decide (0 < j)) [k + 1]).length = 1 := by simp
      rw [h1]
      omega

theorem spectrumData_length (data : List TelemetryPoint) (h : 32 ≤ data.length) :
    (spectrumData data).length = (min data.length 128 + 1) / 2 - 1 := by
  rw [spectrumData, if_neg (by omega)]
  simp only [List.length_map, length_filter_range_pos]

/-- Claim C4, counterexample: a buffer of exactly 32 samples yields
`(32+1)/2 − 1 = 15` spectrum bins (the loop `k < N/2` with `k > 0` keeps
`k = 1..15`), not `floor(N/2) = 16`. -/
theorem c4_counterexample :
    (spectrumData (List.replicate 32 zeroPoint)).length ≠
      min (List.replicate 32 zeroPoint).length 128 / 2 := by
  rw [spectrumData_length _ (by simp)]
  simp

/-- Claim C4, amended: with fewer than 32 samples the analyzer returns an
empty spectrum; with at least 32 samples it returns exactly `⌈N/2⌉ − 1` bins
(`N = min(length, 128)`), the bins `k = 1..⌈N/2⌉−1` excluding the
zero-frequency bin, each with frequency `k·sampleRate/N` (`sampleRate = 200`,
before display rounding) and a nonnegative magnitude.  For even `N` this is
`N/2 − 1` bins, one fewer than the claimed `⌊N/2⌋`. -/
theorem c4_spectrum_bins (data : List TelemetryPoint) :
    (data.length < 32 → spectrumData data = []) ∧
    (32 ≤ data.length →
      (spectrumData data).length = (min data.length 128 + 1) / 2 - 1 ∧
      ∀ pt ∈ spectrumData data, ∃ k : ℕ, 0 < k ∧ k < (min data.length 128 + 1) / 2 ∧
        pt = spectrumPoint data (min data.length 128) k ∧
        pt.1 = (k : ℝ) * 200 / (min data.length 128 : ℕ) ∧ 0 ≤ pt.2) := by
  constructor
  · intro h
    rw [spectrumData, if_pos h]
  · intro h
    refine ⟨spectrumData_length data h, ?_⟩
    intro pt hpt
    rw [spectrumData, if_neg (by omega)] at hpt
    simp only [List.mem_map, List.mem_filter, List.mem_range,
      decide_eq_true_eq] at hpt
    obtain ⟨k, ⟨hkr, hk0⟩, rfl⟩ := hpt
    have hN : (0 : ℝ) < ((min data.length 128 : ℕ) : ℝ) := by
      have h32 : 32 ≤ min data.length 128 := le_min h (by norm_num)
      exact_mod_cast lt_of_lt_of_le (by norm_num) h32
    refine ⟨k, hk0, hkr, rfl, rfl, ?_⟩
    show 0 ≤ Real.sqrt _ * 2 / _ * 1000
    exact mul_nonneg
      (div_nonneg (mul_nonneg (Real.sqrt_nonneg _) (by norm_num)) (le_of_lt hN))
      (by norm_num)

/-- Claim C4, witness: the amended bin count at a 32-sample buffer. -/
theorem c4_spectrum_bins_witness :
    (spectrumData (List.replicate 32 zeroPoint)).length =
      (min (List.replicate 32 zeroPoint).length 128 + 1) / 2 - 1 :=
  ((c4_spectrum_bins (List.replicate 32 zeroPoint)).2 (by simp)).1

/-! ### Claim C5 -/

theorem runReporter_nil_inactive (e : ObsInput) (he : e.isCycleActive = false)
    (acc : CycleAcc) :
    runReporter true acc [e] =
      [⟨e.now, acc.count * 0.05, acc.maxTemp, acc.maxVib,
        if 0 < acc.count then acc.loadSum / acc.count else 0,
        e.wear - acc.startWear,
        if acc.maxVib > 11.2 ∨ (if 0 < acc.count then acc.loadSum / acc.count else 0) > 95
          then .CRITICAL
        else if acc.maxVib > 4.5 ∨ (if 0 < acc.count then acc.loadSum / acc.count else 0) > 80
          then .WARNING
        else .OPTIMAL⟩] := by
  simp [runReporter, cycleEffect, he]

theorem runReporter_active (e : ObsInput) (he : e.isCycleActive = false) :
    ∀ (l : List ObsInput) (acc : CycleAcc), (∀ o ∈ l, o.isCycleActive = true) →
      ∃ r : CycleReport, runReporter true acc (l ++ [e]) = [r] ∧
        r.toolWearDelta = e.wear - acc.startWear ∧
        r.avgLoad = (if 0 < acc.count + l.length then
          (acc.loadSum + (l.map (fun o => o.stats.avgLoad)).sum) /
            ((acc.count : ℝ) + l.length)
          else 0) := by
  intro l
  induction l with
  | nil =>
    intro acc _
    refine ⟨_, by simpa using runReporter_nil_inactive e he acc, rfl, ?_⟩
    simp
  | cons o l ih =>
    intro acc hall
    have ho : o.isCycleActive = true := hall o (List.mem_cons_self o l)
    have hrest : ∀ o ∈ l, o.isCycleActive = true :=
      fun x hx => hall x (List.mem_cons_of_mem o hx)
    obtain ⟨r, hr, hwd, hal⟩ := ih
      ⟨max acc.maxVib (o.stats.peakVelocity * 1000),
       max acc.maxTemp ((o.telemetry.getLast?.map TelemetryPoint.temperature).getD 0),
       acc.loadSum + o.stats.avgLoad, acc.count + 1, acc.startWear⟩ hrest
    refine ⟨r, ?_, hwd, ?_⟩
    · rw [List.cons_append, runReporter]
      simp only [cycleEffect, ho]
      simp only [Bool.true_eq_false, and_false, if_neg, ite_false, if_true,
        and_true, false_and]
      convert hr using 2
    · rw [hal]
      have hcast : ((acc.count + 1 : ℕ) : ℝ) = (acc.count : ℝ) + 1 := by push_cast; ring
      by_cases hc : 0 < acc.count + 1 + l.length
      · rw [if_pos hc, if_pos (by simp only [List.length_cons]; omega : 0 < acc.count + (o :: l).length)]
        simp only [List.map_cons, List.sum_cons, List.length_cons, hcast]
        push_cast
        ring_nf
      · exact (hc (by omega)).elim

/-- Claim C5, counterexample: a cycle observed at two instants with per-tick
motor loads `10, 20` (aggregator windows `[10]` then `[10, 20]`) yields a
report with `avgLoad = (10 + 15)/2 = 12.5`, the mean of the windowed
averages accumulated by the effect, while the arithmetic mean of the
per-tick motor-load samples is `15`. -/
theorem c5_counterexample :
    (runReporter false acc0 [c5Obs1, c5Obs2, c5Obs3]).map CycleReport.avgLoad = [25 / 2] ∧
      (c5Ticks.map TelemetryPoint.motorLoad).sum / (c5Ticks.length : ℝ) = 15 ∧
      (25 / 2 : ℝ) ≠ 15 := by
  refine ⟨?_, by norm_num [c5Ticks, mkLoadPoint], by norm_num⟩
  have h1 : (statsOf (c5Ticks.take 1) activeCmd).avgLoad = 10 := by
    norm_num [statsOf, c5Ticks, mkLoadPoint]
  have h2 : (statsOf c5Ticks activeCmd).avgLoad = 15 := by
    norm_num [statsOf, c5Ticks, mkLoadPoint]
  simp only [runReporter, cycleEffect, c5Obs1, c5Obs2, c5Obs3, acc0, h1, h2]
  norm_num

/-- Claim C5, amended: for a cycle observed by the report effect as a rising
edge, further active observations, and a falling edge, exactly one report is
emitted; its `toolWearDelta` equals the wear at the falling edge minus the
wear at the rising edge, and its `avgLoad` equals the arithmetic mean, over
the active observation instants, of the aggregator's windowed average load
`stats.avgLoad` (not the mean of raw per-tick motor-load samples). -/
theorem c5_cycle_report (a : ObsInput) (l : List ObsInput) (e : ObsInput)
    (ha : a.isCycleActive = true) (hl : ∀ o ∈ l, o.isCycleActive = true)
    (he : e.isCycleActive = false) (acc : CycleAcc) :
    ∃ r : CycleReport, runReporter false acc (a :: (l ++ [e])) = [r] ∧
      r.toolWearDelta = e.wear - a.wear ∧
      r.avgLoad = ((a :: l).map (fun o => o.stats.avgLoad)).sum / ((a :: l).length : ℝ) := by
  obtain ⟨r, hr, hwd, hal⟩ := runReporter_active e he l
    ⟨max 0 (a.stats.peakVelocity * 1000),
     max 0 ((a.telemetry.getLast?.map TelemetryPoint.temperature).getD 0),
     0 + a.stats.avgLoad, 0 + 1, a.wear⟩ hl
  refine ⟨r, ?_, by simpa using hwd, ?_⟩
  · rw [runReporter]
    simp only [cycleEffect, ha]
    simp only [Bool.true_eq_false, and_false, if_neg, ite_false, if_true,
      and_true, false_and, true_and, ite_true]
    convert hr using 2
  · rw [hal, if_pos (by simp)]
    simp only [List.map_cons, List.sum_cons, List.length_cons]
    push_cast
    ring_nf

/-- Claim C5, witness: the amended statement applied to the concrete
three-observation cycle. -/
theorem c5_cycle_report_witness :
    ∃ r : CycleReport, runReporter false acc0 (c5Obs1 :: ([c5Obs2] ++ [c5Obs3])) = [r] ∧
      r.toolWearDelta = c5Obs3.wear - c5Obs1.wear ∧
      r.avgLoad = ((c5Obs1 :: [c5Obs2]).map (fun o => o.stats.avgLoad)).sum /
        ((c5Obs1 :: [c5Obs2]).length : ℝ) :=
  c5_cycle_report c5Obs1 [c5Obs2] c5Obs3 rfl (by intro o ho; simp at ho; subst ho; rfl)
    rfl acc0

/-! ### Claim C8 -/

theorem c8Cmd_fo_one : (c8Cmd 1).feedOverride = 1.5 := by
  simp [c8Cmd]

theorem c8Cmd_fo_mid (n : ℕ) (h1 : n ≠ 1) (h2 : n ≤ 4668) :
    (c8Cmd n).feedOverride = 0.075 := by
  simp only [c8Cmd]
  rw [if_neg h1, if_pos h2]

theorem c8Cmd_fo_late (n : ℕ) (h2 : 4668 < n) :
    (c8Cmd n).feedOverride = 0.75 := by
  simp only [c8Cmd]
  rw [if_neg (by omega : ¬ n = 1), if_neg (by omega : ¬ n ≤ 4668)]

theorem c8State_one :
    (c8State 1).zVel = 0 ∧ (c8State 1).zPos = 0 ∧
      (c8State 1).cycleState = .RAPID_DOWN := by
  have h := cycleLogic_IDLE MACHINE_CONSTANTS (c8Cmd 0) zeroRand initState rfl rfl
  refine ⟨?_, ?_, ?_⟩
  · show ((stepPhysics MACHINE_CONSTANTS (c8Cmd 0) zeroRand initState).1).zVel = 0
    rw [step_zVel, h]
    norm_num [initState]
  · show ((stepPhysics MACHINE_CONSTANTS (c8Cmd 0) zeroRand initState).1).zPos = 0
    rw [step_zPos, h]
    norm_num [initState]
  · show ((stepPhysics MACHINE_CONSTANTS (c8Cmd 0) zeroRand initState).1).cycleState =
      CycleState.RAPID_DOWN
    rw [step_cycleState, h]

theorem c8_closed_form : ∀ n, 2 ≤ n → n ≤ 6001 →
    (c8State n).zVel = 3 / 200 ∧
      (c8State n).zPos = ((n : ℝ) - 1) * (3 / 40000) ∧
      (c8State n).cycleState = (if n ≤ 4668 then CycleState.RAPID_DOWN else .CUTTING) := by
  intro n
  induction n with
  | zero => omega
  | succ n ih =>
    intro h2 h6001
    by_cases hn2 : 2 ≤ n
    · obtain ⟨hv, hp, hs⟩ := ih hn2 (by omega)
      by_cases hcut : n ≤ 4668
      · -- the tick executes the RAPID_DOWN case
        have hs' : (c8State n).cycleState = .RAPID_DOWN := by
          rw [hs, if_pos hcut]
        have hfo : (c8Cmd n).feedOverride = 0.075 := c8Cmd_fo_mid n (by omega) hcut
        have hcl := cycleLogic_RAPID MACHINE_CONSTANTS (c8Cmd n) zeroRand (c8State n)
          rfl hs'
        refine ⟨?_, ?_, ?_⟩
        · show ((stepPhysics MACHINE_CONSTANTS (c8Cmd n) zeroRand (c8State n)).1).zVel = _
          rw [step_zVel, hcl]
          show (c8State n).zVel +
            (0.2 * (c8Cmd n).feedOverride - (c8State n).zVel) * 0.05 = 3 / 200
          rw [hv, hfo]
          norm_num
        · show ((stepPhysics MACHINE_CONSTANTS (c8Cmd n) zeroRand (c8State n)).1).zPos = _
          rw [step_zPos, hcl]
          show (c8State n).zPos + ((c8State n).zVel +
            (0.2 * (c8Cmd n).feedOverride - (c8State n).zVel) * 0.05) * DT = _
          rw [hv, hfo, hp, DT]
          push_cast
          ring
        · show ((stepPhysics MACHINE_CONSTANTS (c8Cmd n) zeroRand (c8State n)).1).cycleState
            = _
          rw [step_cycleState, hcl]
          show (if (c8State n).zPos ≥ 0.35 then CycleState.CUTTING else .RAPID_DOWN) = _
          rw [hp]
          by_cases hend : n = 4668
          · subst hend
            rw [if_pos (by norm_num), if_neg (by omega)]
          · have hlt : (n : ℝ) ≤ 4667 := by exact_mod_cast (by omega : n ≤ 4667)
            rw [if_neg (by push_neg; nlinarith), if_pos (by omega)]
      · -- the tick executes the CUTTING case
        have hs' : (c8State n).cycleState = .CUTTING := by
          rw [hs, if_neg hcut]
        have hfo : (c8Cmd n).feedOverride = 0.75 := c8Cmd_fo_late n (by omega)
        have hcl := cycleLogic_CUTTING MACHINE_CONSTANTS (c8Cmd n) zeroRand (c8State n)
          rfl hs'
        have hzlt : ¬ (c8State n).zPos ≥ 0.45 := by
          rw [hp]
          push_neg
          have hlt : (n : ℝ) ≤ 6000 := by exact_mod_cast (by omega : n ≤ 6000)
          nlinarith
        refine ⟨?_, ?_, ?_⟩
        · show ((stepPhysics MACHINE_CONSTANTS (c8Cmd n) zeroRand (c8State n)).1).zVel = _
          rw [step_zVel, hcl]
          show (c8State n).zVel +
            (0.02 * (c8Cmd n).feedOverride - (c8State n).zVel) * 0.05 = 3 / 200
          rw [hv, hfo]
          norm_num
        · show ((stepPhysics MACHINE_CONSTANTS (c8Cmd n) zeroRand (c8State n)).1).zPos = _
          rw [step_zPos, hcl]
          show (c8State n).zPos + ((c8State n).zVel +
            (0.02 * (c8Cmd n).feedOverride - (c8State n).zVel) * 0.05) * DT = _
          rw [hv, hfo, hp, DT]
          push_cast
          ring
        · show ((stepPhysics MACHINE_CONSTANTS (c8Cmd n) zeroRand (c8State n)).1).cycleState
            = _
          rw [step_cycleState, hcl]
          show (if (c8State n).zPos ≥ 0.45 then CycleState.RETRACT else .CUTTING) = _
          rw [if_neg hzlt, if_neg (by omega)]
    · -- base case: n = 1
      have hn1 : n = 1 := by omega
      subst hn1
      obtain ⟨h1v, h1p, h1s⟩ := c8State_one
      have hcl := cycleLogic_RAPID MACHINE_CONSTANTS (c8Cmd 1) zeroRand (c8State 1)
        rfl h1s
      refine ⟨?_, ?_, ?_⟩
      · show ((stepPhysics MACHINE_CONSTANTS (c8Cmd 1) zeroRand (c8State 1)).1).zVel = _
        rw [step_zVel, hcl]
        show (c8State 1).zVel +
          (0.2 * (c8Cmd 1).feedOverride - (c8State 1).zVel) * 0.05 = 3 / 200
        rw [h1v, c8Cmd_fo_one]
        norm_num
      · show ((stepPhysics MACHINE_CONSTANTS (c8Cmd 1) zeroRand (c8State 1)).1).zPos = _
        rw [step_zPos, hcl]
        show (c8State 1).zPos + ((c8State 1).zVel +
          (0.2 * (c8Cmd 1).feedOverride - (c8State 1).zVel) * 0.05) * DT = _
        rw [h1v, h1p, c8Cmd_fo_one, DT]
        norm_num
      · show ((stepPhysics MACHINE_CONSTANTS (c8Cmd 1) zeroRand (c8State 1)).1).cycleState
          = _
        rw [step_cycleState, hcl]
        show (if (c8State 1).zPos ≥ 0.35 then CycleState.CUTTING else .RAPID_DOWN) = _
        rw [h1p, if_neg (by norm_num), if_pos (by omega)]

/-- Claim C8, counterexample: the committed state after tick 6002 of a run
from the initial state (cycle active throughout, feed overrides within
`[0, 1.5]`) has `zPos = 18003/40000 = 0.450075 > BOTTOM_Z = 0.45`: the
`CUTTING` case checks `zPos >= BOTTOM_Z` before integrating, so the
switch-to-`RETRACT` tick still feeds downward past the bottom. -/
theorem c8_counterexample :
    c8State 6002 = runPhysics MACHINE_CONSTANTS c8Cmd (fun _ => zeroRand) initState 6002 ∧
      0.45 < (c8State 6002).zPos := by
  refine ⟨rfl, ?_⟩
  obtain ⟨hv, hp, hs⟩ := c8_closed_form 6001 (by omega) (by omega)
  have hs' : (c8State 6001).cycleState = .CUTTING := by
    rw [hs, if_neg (by omega)]
  have hcl := cycleLogic_CUTTING MACHINE_CONSTANTS (c8Cmd 6001) zeroRand (c8State 6001)
    rfl hs'
  show 0.45 < ((stepPhysics MACHINE_CONSTANTS (c8Cmd 6001) zeroRand (c8State 6001)).1).zPos
  rw [step_zPos, hcl]
  show 0.45 < (c8State 6001).zPos + ((c8State 6001).zVel +
    (0.02 * (c8Cmd 6001).feedOverride - (c8State 6001).zVel) * 0.05) * DT
  rw [hv, hp, c8Cmd_fo_late 6001 (by omega), DT]
  norm_num

theorem Mval_step (p : PhysicsParams) (c : ControllerState) (r : RandDraws)
    (s : EngineState) :
    Mval ((stepPhysics p c r s).1) = Mval s + 0.005 * (cycleLogic p c r s).targetVel := by
  simp only [Mval, step_zPos, step_zVel, DT]
  ring

theorem zPos_from_Mval (s : EngineState) : s.zPos = Mval s - 0.095 * s.zVel := by
  simp only [Mval]
  ring

theorem mbound_ge (ph : CycleState) : 0.0185 ≤ mbound ph := by
  cases ph <;> norm_num [mbound]

set_option maxHeartbeats 2000000 in
theorem axisInv_step (p : PhysicsParams) (c : ControllerState) (r : RandDraws)
    (s : EngineState) (hfo0 : 0 ≤ c.feedOverride) (hfo1 : c.feedOverride ≤ 1.5)
    (hinv : axisInv s) : axisInv ((stepPhysics p c r s).1) := by
  obtain ⟨h1, h2, h3, h4, h5⟩ := hinv
  obtain ⟨h1a, h1b⟩ := abs_le.mp h1
  have hp' : ((stepPhysics p c r s).1).zPos =
      s.zPos + ((stepPhysics p c r s).1).zVel * 0.005 := by
    rw [step_zPos, step_zVel, DT]
  have hzM := zPos_from_Mval ((stepPhysics p c r s).1)
  by_cases hA : c.isCycleActive = true
  · cases hph : s.cycleState with
    | IDLE =>
      have hcl := cycleLogic_IDLE p c r s hA hph
      have hv' : ((stepPhysics p c r s).1).zVel = 0.95 * s.zVel := by
        rw [step_zVel, hcl]
        show s.zVel + (0 - s.zVel) * 0.05 = 0.95 * s.zVel
        ring
      have hM' : Mval ((stepPhysics p c r s).1) = Mval s := by
        rw [Mval_step, hcl]
        show Mval s + 0.005 * 0 = Mval s
        ring
      have hph2 : ((stepPhysics p c r s).1).cycleState = .RAPID_DOWN := by
        rw [step_cycleState, hcl]
      have hMub : Mval s ≤ 0 := by
        have := h3
        rw [hph] at this
        simpa [Ubound] using this
      have hm' : ((stepPhysics p c r s).1).zVel < 0 →
          (0.0185 : ℝ) ≤ Mval ((stepPhysics p c r s).1) := by
        intro hlt
        rw [hv'] at hlt
        have hvneg : s.zVel < 0 := by nlinarith
        have := h4 hvneg
        rw [hph] at this
        simp only [mbound] at this
        rw [hM']
        exact this
      refine ⟨?_, ?_, ?_, ?_, ?_⟩
      · rw [hv', abs_le]
        constructor <;> nlinarith
      · rcases le_or_lt 0 ((stepPhysics p c r s).1).zVel with hge | hlt
        · rw [hp']
          nlinarith
        · rw [hzM]
          have := hm' hlt
          nlinarith
      · rw [hph2, hM']
        simp only [Ubound]
        linarith
      · intro hlt
        rw [hph2]
        simp only [mbound]
        exact hm' hlt
      · rw [hph2]
        exact fun h => nomatch h
    | RAPID_DOWN =>
      have hcl := cycleLogic_RAPID p c r s hA hph
      have hv' : ((stepPhysics p c r s).1).zVel =
          0.95 * s.zVel + 0.05 * (0.2 * c.feedOverride) := by
        rw [step_zVel, hcl]
        show s.zVel + (0.2 * c.feedOverride - s.zVel) * 0.05 = _
        ring
      have hM' : Mval ((stepPhysics p c r s).1) =
          Mval s + 0.005 * (0.2 * c.feedOverride) := by
        rw [Mval_step, hcl]
      have hMub : Mval s ≤ 0.38 := by
        have := h3
        rw [hph] at this
        simpa [Ubound] using this
      have hm' : ((stepPhysics p c r s).1).zVel < 0 →
          (0.0185 : ℝ) ≤ Mval ((stepPhysics p c r s).1) := by
        intro hlt
        rw [hv'] at hlt
        have hvneg : s.zVel < 0 := by nlinarith
        have := h4 hvneg
        rw [hph] at this
        simp only [mbound] at this
        rw [hM']
        nlinarith
      have habs : |((stepPhysics p c r s).1).zVel| ≤ 0.3 := by
        rw [hv', abs_le]
        constructor <;> nlinarith
      have hpos : 0 ≤ ((stepPhysics p c r s).1).zPos := by
        rcases le_or_lt 0 ((stepPhysics p c r s).1).zVel with hge | hlt
        · rw [hp']
          nlinarith
        · rw [hzM]
          have := hm' hlt
          nlinarith
      by_cases hz : s.zPos ≥ 0.35
      · have hph2 : ((stepPhysics p c r s).1).cycleState = .CUTTING := by
          rw [step_cycleState, hcl]
          show (if s.zPos ≥ 0.35 then CycleState.CUTTING else .RAPID_DOWN) = _
          rw [if_pos hz]
        refine ⟨habs, hpos, ?_, ?_, ?_⟩
        · rw [hph2, hM']
          simp only [Ubound]
          nlinarith
        · intro hlt
          rw [hph2]
          simp only [mbound]
          exact hm' hlt
        · rw [hph2]
          exact fun h => nomatch h
      · have hph2 : ((stepPhysics p c r s).1).cycleState = .RAPID_DOWN := by
          rw [step_cycleState, hcl]
          show (if s.zPos ≥ 0.35 then CycleState.CUTTING else .RAPID_DOWN) = _
          rw [if_neg hz]
        push_neg at hz
        refine ⟨habs, hpos, ?_, ?_, ?_⟩
        · rw [hph2, hM']
          simp only [Ubound]
          have hMx : Mval s = s.zPos + 0.095 * s.zVel := rfl
          nlinarith
        · intro hlt
          rw [hph2]
          simp only [mbound]
          exact hm' hlt
        · rw [hph2]
          exact fun h => nomatch h
    | CUTTING =>
      have hcl := cycleLogic_CUTTING p c r s hA hph
      have hv' : ((stepPhysics p c r s).1).zVel =
          0.95 * s.zVel + 0.05 * (0.02 * c.feedOverride) := by
        rw [step_zVel, hcl]
        show s.zVel + (0.02 * c.feedOverride - s.zVel) * 0.05 = _
        ring
      have hM' : Mval ((stepPhysics p c r s).1) =
          Mval s + 0.005 * (0.02 * c.feedOverride) := by
        rw [Mval_step, hcl]
      have hMub : Mval s ≤ 0.47865 := by
        have := h3
        rw [hph] at this
        simpa [Ubound] using this
      have hMx : Mval s = s.zPos + 0.095 * s.zVel := rfl
      have habs : |((stepPhysics p c r s).1).zVel| ≤ 0.3 := by
        rw [hv', abs_le]
        constructor <;> nlinarith
      have hm' : ((stepPhysics p c r s).1).zVel < 0 →
          (0.0185 : ℝ) ≤ Mval ((stepPhysics p c r s).1) := by
        intro hlt
        rw [hv'] at hlt
        have hvneg : s.zVel < 0 := by nlinarith
        have := h4 hvneg
        rw [hph] at this
        simp only [mbound] at this
        rw [hM']
        nlinarith
      have hpos : 0 ≤ ((stepPhysics p c r s).1).zPos := by
        rcases le_or_lt 0 ((stepPhysics p c r s).1).zVel with hge | hlt
        · rw [hp']
          nlinarith
        · rw [hzM]
          have := hm' hlt
          nlinarith
      by_cases hz : s.zPos ≥ 0.45
      · have hph2 : ((stepPhysics p c r s).1).cycleState = .RETRACT := by
          rw [step_cycleState, hcl]
          show (if s.zPos ≥ 0.45 then CycleState.RETRACT else .CUTTING) = _
          rw [if_pos hz]
        refine ⟨habs, hpos, ?_, ?_, ?_⟩
        · rw [hph2, hM']
          simp only [Ubound]
          nlinarith
        · intro hlt
          rw [hph2]
          simp only [mbound]
          rw [hM']
          nlinarith
        · rw [hph2]
          intro _
          right
          rw [hp']
          have h1' := (abs_le.mp habs).1
          nlinarith
      · have hph2 : ((stepPhysics p c r s).1).cycleState = .CUTTING := by
          rw [step_cycleState, hcl]
          show (if s.zPos ≥ 0.45 then CycleState.RETRACT else .CUTTING) = _
          rw [if_neg hz]
        push_neg at hz
        refine ⟨habs, hpos, ?_, ?_, ?_⟩
        · rw [hph2, hM']
          simp only [Ubound]
          nlinarith
        · intro hlt
          rw [hph2]
          simp only [mbound]
          exact hm' hlt
        · rw [hph2]
          exact fun h => nomatch h
    | RETRACT =>
      have hcl := cycleLogic_RETRACT p c r s hA hph
      have hv' : ((stepPhysics p c r s).1).zVel =
          0.95 * s.zVel + 0.05 * (-0.3) := by
        rw [step_zVel, hcl]
        show s.zVel + (-0.3 - s.zVel) * 0.05 = _
        ring
      have hM' : Mval ((stepPhysics p c r s).1) = Mval s + 0.005 * (-0.3) := by
        rw [Mval_step, hcl]
      have hMub : Mval s ≤ 0.4788 := by
        have := h3
        rw [hph] at this
        simpa [Ubound] using this
      have hMx : Mval s = s.zPos + 0.095 * s.zVel := rfl
      have habs : |((stepPhysics p c r s).1).zVel| ≤ 0.3 := by
        rw [hv', abs_le]
        constructor <;> nlinarith
      by_cases hz : s.zPos ≤ 0.05
      · -- exit to RAPID_DOWN; the invariant forces the axis to be moving up
        have hvneg : s.zVel < 0 := by
          rcases h5 hph with hn | hx
          · exact hn
          · linarith
        have hMlo : (0.02 : ℝ) ≤ Mval s := by
          have := h4 hvneg
          rw [hph] at this
          simpa [mbound] using this
        have hph2 : ((stepPhysics p c r s).1).cycleState = .RAPID_DOWN := by
          rw [step_cycleState, hcl]
          show (if s.zPos ≤ 0.05 then CycleState.RAPID_DOWN else .RETRACT) = _
          rw [if_pos hz]
        have hm' : (0.0185 : ℝ) ≤ Mval ((stepPhysics p c r s).1) := by
          rw [hM']
          nlinarith
        refine ⟨habs, ?_, ?_, ?_, ?_⟩
        · rcases le_or_lt 0 ((stepPhysics p c r s).1).zVel with hge | hlt
          · rw [hp']
            nlinarith
          · rw [hzM]
            nlinarith
        · rw [hph2, hM']
          simp only [Ubound]
          nlinarith
        · intro _
          rw [hph2]
          simp only [mbound]
          exact hm'
        · rw [hph2]
          exact fun h => nomatch h
      · push_neg at hz
        have hMlo : (0.0215 : ℝ) < Mval s := by
          rw [hMx]
          nlinarith
        have hph2 : ((stepPhysics p c r s).1).cycleState = .RETRACT := by
          rw [step_cycleState, hcl]
          show (if s.zPos ≤ 0.05 then CycleState.RAPID_DOWN else .RETRACT) = _
          rw [if_neg (by linarith)]
        have hm' : (0.02 : ℝ) ≤ Mval ((stepPhysics p c r s).1) := by
          rw [hM']
          nlinarith
        refine ⟨habs, ?_, ?_, ?_, ?_⟩
        · rcases le_or_lt 0 ((stepPhysics p c r s).1).zVel with hge | hlt
          · rw [hp']
            nlinarith
          · rw [hzM]
            nlinarith
        · rw [hph2, hM']
          simp only [Ubound]
          nlinarith
        · intro _
          rw [hph2]
          simp only [mbound]
          exact hm'
        · rw [hph2]
          intro _
          rcases lt_or_le ((stepPhysics p c r s).1).zVel 0 with hlt | hge
          · exact Or.inl hlt
          · right
            rw [hp']
            nlinarith
  · have hA2 : c.isCycleActive = false := by
      cases hb : c.isCycleActive
      · rfl
      · exact absurd hb hA
    have hcl := cycleLogic_inactive p c r s hA2
    have hv' : ((stepPhysics p c r s).1).zVel = 0.95 * s.zVel := by
      rw [step_zVel, hcl]
      show s.zVel + (0 - s.zVel) * 0.05 = 0.95 * s.zVel
      ring
    have hM' : Mval ((stepPhysics p c r s).1) = Mval s := by
      rw [Mval_step, hcl]
      show Mval s + 0.005 * 0 = Mval s
      ring
    have hph2 : ((stepPhysics p c r s).1).cycleState = s.cycleState := by
      rw [step_cycleState, hcl]
    have hm' : ((stepPhysics p c r s).1).zVel < 0 →
        mbound s.cycleState ≤ Mval ((stepPhysics p c r s).1) := by
      intro hlt
      rw [hv'] at hlt
      rw [hM']
      exact h4 (by nlinarith)
    refine ⟨?_, ?_, ?_, ?_, ?_⟩
    · rw [hv', abs_le]
      constructor <;> nlinarith
    · rcases le_or_lt 0 ((stepPhysics p c r s).1).zVel with hge | hlt
      · rw [hp']
        nlinarith
      · rw [hzM]
        have hmb := mbound_ge s.cycleState
        have := hm' hlt
        nlinarith
    · rw [hph2, hM']
      exact h3
    · intro hlt
      rw [hph2, hM']
      have := hm' hlt
      rw [hM'] at this
      exact this
    · rw [hph2]
      intro hR
      rcases h5 hR with hn | hx
      · left
        rw [hv']
        nlinarith
      · rcases le_or_lt 0 s.zVel with hv0 | hv0
        · right
          rw [hp', hv']
          nlinarith
        · left
          rw [hv']
          nlinarith

theorem axisInv_init : axisInv initState := by
  refine ⟨by norm_num [initState], by norm_num [initState],
    by norm_num [initState, Mval, Ubound], ?_, ?_⟩
  · intro h
    norm_num [initState] at h
  · intro h
    simp [initState] at h

/-- Claim C8, amended: along every tick sequence from the initial state with
feed overrides in the documented `[0, 1.5]` range, the committed axis
position satisfies `0 ≤ zPos ≤ 0.5073`: it never goes negative, but it is
not confined to `[0, BOTTOM_Z]` — it can transiently overshoot
`BOTTOM_Z = 0.45` by carried momentum before `RETRACT` pulls it back. -/
theorem c8_zpos_bounded (p : PhysicsParams) (cmds : ℕ → ControllerState)
    (rnds : ℕ → RandDraws)
    (hfo : ∀ k, 0 ≤ (cmds k).feedOverride ∧ (cmds k).feedOverride ≤ 1.5) (n : ℕ) :
    0 ≤ (runPhysics p cmds rnds initState n).zPos ∧
      (runPhysics p cmds rnds initState n).zPos ≤ 0.5073 := by
  have hinv : ∀ m, axisInv (runPhysics p cmds rnds initState m) := by
    intro m
    induction m with
    | zero => exact axisInv_init
    | succ m ih => exact axisInv_step p (cmds m) (rnds m) _ (hfo m).1 (hfo m).2 ih
  obtain ⟨h1, h2, h3, h4, h5⟩ := hinv n
  refine ⟨h2, ?_⟩
  have hub : Ubound (runPhysics p cmds rnds initState n).cycleState ≤ 0.4788 := by
    cases hceq : (runPhysics p cmds rnds initState n).cycleState <;> norm_num [Ubound]
  have habs := (abs_le.mp h1).1
  have hzm := zPos_from_Mval (runPhysics p cmds rnds initState n)
  nlinarith

/-- Claim C8, witness: the amended bound applied to a two-tick held run. -/
theorem c8_zpos_bounded_witness :
    0 ≤ (runPhysics MACHINE_CONSTANTS (fun _ => holdCmd) (fun _ => zeroRand) initState 2).zPos ∧
      (runPhysics MACHINE_CONSTANTS (fun _ => holdCmd) (fun _ => zeroRand) initState 2).zPos
        ≤ 0.5073 :=
  c8_zpos_bounded MACHINE_CONSTANTS (fun _ => holdCmd) (fun _ => zeroRand)
    (fun _ => ⟨by norm_num [holdCmd], by norm_num [holdCmd]⟩) 2
